import Mathlib

/-!
Verification of the Palimpsest storage + indexing core.

This file shallowly embeds the Python sources of the repository
(`palimpsest/models/trace.py`, `palimpsest/models/migrations.py`,
`palimpsest/storage/file_manager.py`, `palimpsest/storage/indexer.py`,
`palimpsest/engine.py`, `palimpsest/exceptions.py`) as executable Lean
definitions, and proves or refutes the testable claims of the specification
against this embedding.

Modelling conventions:
- Decoded JSON payload dictionaries become the `Json` inductive below; Python
  dict operations become association-list operations preserving insertion
  order (Python dicts preserve insertion order; keys are unique).
- `datetime` values are modelled by their ISO-8601 serialized string form
  (the only form in which the storage layer observes them).
- Python exceptions become the `Except` monad over the `PalErr` error type
  whose constructors are exactly the exception classes of `exceptions.py`.
- Nondeterministic inputs of the code (`uuid4`, `datetime.now`, CPython's
  `hash`, index-backend faults) become explicit parameters that theorems
  quantify over.
-/

namespace Palimpsest

/-- JSON-like values: the shape of the raw, untyped payload dictionaries the
system decodes from callers and from trace files. -/
inductive Json where
  | null
  | bool (b : Bool)
  | num (n : Int)
  | str (s : String)
  | arr (elems : List Json)
  | obj (fields : List (String × Json))

/-- A Python dictionary with string keys, as an insertion-ordered association
list with unique keys. -/
abbrev Payload := List (String × Json)

/-- `d[k]` lookup returning `none` when the key is absent. -/
def dget (d : Payload) (k : String) : Option Json :=
  match d with
  | [] => none
  | (k', v) :: rest => if k' = k then some v else dget rest k

/-- `k in d` membership test. -/
def dmem (d : Payload) (k : String) : Bool :=
  (dget d k).isSome

/-- `d[k] = v` assignment: replaces the value in place when the key exists
(Python dicts keep the original key position), appends otherwise. -/
def dset (d : Payload) (k : String) (v : Json) : Payload :=
  match d with
  | [] => [(k, v)]
  | (k', v') :: rest => if k' = k then (k, v) :: rest else (k', v') :: dset rest k v

/-! ## String helpers (Python `str.strip` / `str.lower` / `sorted` / `set`) -/

/-- Python `str.lower`, restricted to the ASCII range actually exercised by
the code (`Char.toLower` lowers `A`-`Z`). -/
def asciiLower (s : String) : String :=
  String.mk (s.data.map Char.toLower)

/-- Python `str.strip()`: drop whitespace from both ends. -/
def pyStrip (s : String) : String :=
  String.mk (((s.data.dropWhile Char.isWhitespace).reverse.dropWhile
    Char.isWhitespace).reverse)

/-- Lexicographic (code point) order on character lists: the comparison CPython
uses for `str` and SQLite uses for TEXT (byte order on UTF-8 agrees with code
point order). -/
def lexLeB : List Char → List Char → Bool
  | [], _ => true
  | _ :: _, [] => false
  | a :: as, b :: bs => if a = b then lexLeB as bs else decide (a < b)

def strLeB (a b : String) : Bool :=
  lexLeB a.data b.data

/-- `needle` is a prefix of `hay`. -/
def isPrefixChars : List Char → List Char → Bool
  | [], _ => true
  | _ :: _, [] => false
  | a :: as, b :: bs => a == b && isPrefixChars as bs

/-- Python `s.startswith(pre)`. -/
def pyStartsWith (s pre : String) : Bool :=
  isPrefixChars pre.data s.data

/-- Python `sep.join(words)`. -/
def pyJoin (sep : String) : List String → String
  | [] => ""
  | [w] => w
  | w :: ws => w ++ sep ++ pyJoin sep ws

/-- Ordered insertion for lexicographic string sort (Python `sorted`). -/
def insertStr (s : String) : List String → List String
  | [] => [s]
  | t :: ts => if strLeB s t then s :: t :: ts else t :: insertStr s ts

/-- Python `sorted` on strings (lexicographic by code point, as in CPython). -/
def sortStrs (l : List String) : List String :=
  l.foldr insertStr []

/-- Duplicate removal (Python `set`), keeping the first occurrence; the order
is irrelevant because the result is sorted afterwards. -/
def dedupSeen (seen : List String) : List String → List String
  | [] => []
  | s :: rest => if s ∈ seen then dedupSeen seen rest else s :: dedupSeen (s :: seen) rest

/-- The `tags` field validator of `TraceContext` (models/trace.py lines 69-77):
keep the tags whose `strip()` is non-empty, replace each by
`tag.strip().lower()`, then `sorted(list(set(cleaned_tags)))`. -/
def normalizeTags (tags : List String) : List String :=
  let cleaned := (tags.filter (fun t => pyStrip t ≠ "")).map
    (fun t => asciiLower (pyStrip t))
  sortStrs (dedupSeen [] cleaned)

/-- The `domain` field validator of `ExecutionTrace` (models/trace.py lines
161-167): `v.strip().lower() if v.strip() else None`. -/
def normalizeDomain (s : String) : Option String :=
  if pyStrip s = "" then none else some (asciiLower (pyStrip s))

/-! ## Data model (`palimpsest/models/trace.py`) -/

/-- The `Literal["analyze", "implement", "test", "debug"]` action vocabulary of
`ExecutionStep.action`. -/
inductive StepAction where
  | analyze
  | implement
  | test
  | debug
deriving Repr, DecidableEq

def StepAction.toStr : StepAction → String
  | .analyze => "analyze"
  | .implement => "implement"
  | .test => "test"
  | .debug => "debug"

def stepActionOfStr (s : String) : Option StepAction :=
  if s = "analyze" then some .analyze
  else if s = "implement" then some .implement
  else if s = "test" then some .test
  else if s = "debug" then some .debug
  else none

/-- The `Literal["simple", "moderate", "complex"]` vocabulary of
`ExecutionTrace.complexity`. -/
inductive Complexity where
  | simple
  | moderate
  | complex
deriving Repr, DecidableEq

def Complexity.toStr : Complexity → String
  | .simple => "simple"
  | .moderate => "moderate"
  | .complex => "complex"

def complexityOfStr (s : String) : Option Complexity :=
  if s = "simple" then some .simple
  else if s = "moderate" then some .moderate
  else if s = "complex" then some .complex
  else none

/-- `ExecutionStep` (models/trace.py lines 14-43). `step_number` is an `int`
with constraint `ge=1`. -/
structure ExecutionStep where
  step_number : Int
  action : StepAction
  content : String
  success : Bool
  error_message : Option String
deriving Repr, DecidableEq

/-- `TraceContext` (models/trace.py lines 46-95). The `timestamp` is modelled
by its ISO-8601 string serialization; `environment` is an open key/value map
carried through opaquely. -/
structure TraceContext where
  timestamp : String
  trace_id : String
  tags : List String
  environment : Option Payload

/-- `ExecutionTrace` (models/trace.py lines 98-249). -/
structure ExecutionTrace where
  schema_version : String
  problem_statement : String
  outcome : String
  execution_steps : List ExecutionStep
  context : TraceContext
  success : Bool
  domain : Option String
  complexity : Option Complexity

/-- The sequential-step check of `validate_execution_steps` (models/trace.py
lines 145-159): position `i` must carry `step_number = i + 1`. -/
def seqFrom (n : Int) : List ExecutionStep → Bool
  | [] => true
  | s :: rest => s.step_number == n && seqFrom (n + 1) rest

/-! ## Pydantic validation (`ExecutionTrace.model_validate`) -/

/-- A required string field with a `min_length` constraint. -/
def reqStr (d : Payload) (k : String) (minLen : Nat) : Except String String :=
  match dget d k with
  | some (.str s) => if s.length < minLen then .error (k ++ " too short") else .ok s
  | some _ => .error (k ++ " must be a string")
  | none => .error (k ++ " is required")

/-- A `bool` field with default `True` (`success` on both models). A present
`null` is not a valid `bool` for pydantic. -/
def optBoolDefaultTrue (d : Payload) (k : String) : Except String Bool :=
  match dget d k with
  | none => .ok true
  | some (.bool b) => .ok b
  | some _ => .error (k ++ " must be a boolean")

/-- An `Optional[str]` field with default `None`. -/
def optStrField (d : Payload) (k : String) : Except String (Option String) :=
  match dget d k with
  | none => .ok none
  | some .null => .ok none
  | some (.str s) => .ok (some s)
  | some _ => .error (k ++ " must be a string or null")

/-- Validation of one `ExecutionStep` payload. -/
def parseStep (j : Json) : Except String ExecutionStep :=
  match j with
  | .obj d => do
    let n ← (match dget d "step_number" with
      | some (.num n) =>
        if n < 1 then Except.error "step_number must be >= 1" else Except.ok n
      | some _ => Except.error "step_number must be an integer"
      | none => Except.error "step_number is required")
    let a ← (match dget d "action" with
      | some (.str s) =>
        (match stepActionOfStr s with
          | some act => Except.ok act
          | none => Except.error "action must be one of analyze, implement, test, debug")
      | some _ => Except.error "action must be a string"
      | none => Except.error "action is required")
    let c ← reqStr d "content" 1
    let su ← optBoolDefaultTrue d "success"
    let em ← optStrField d "error_message"
    Except.ok { step_number := n, action := a, content := c, success := su, error_message := em }
  | _ => .error "each execution step must be an object"

/-- Element-wise validation of the `execution_steps` list. -/
def parseStepList : List Json → Except String (List ExecutionStep)
  | [] => .ok []
  | j :: rest => do
    let s ← parseStep j
    let ss ← parseStepList rest
    Except.ok (s :: ss)

/-- `execution_steps` field validation: `min_length=1` plus the
`validate_execution_steps` sequential-numbering validator. -/
def parseExecutionSteps (j : Json) : Except String (List ExecutionStep) :=
  match j with
  | .arr xs => do
    let ss ← parseStepList xs
    if ss.isEmpty then Except.error "At least one execution step is required"
    else if seqFrom 1 ss then Except.ok ss
    else Except.error "Step numbers must be sequential starting from 1"
  | _ => .error "execution_steps must be a list"

/-- `tags: List[str]` element validation (each element must be a string). -/
def strsOf : List Json → Except String (List String)
  | [] => .ok []
  | .str s :: rest => do
    let ss ← strsOf rest
    Except.ok (s :: ss)
  | _ :: _ => .error "tags must be strings"

/-- Validation of a `TraceContext` payload. `genId` and `now` stand for the
`default_factory` values `str(uuid4())` and `datetime.now()`. -/
def parseContext (genId now : String) (j : Json) : Except String TraceContext :=
  match j with
  | .obj d => do
    let ts ← (match dget d "timestamp" with
      | none => Except.ok now
      | some (.str s) => Except.ok s
      | some _ => Except.error "timestamp must be a datetime")
    let tid ← (match dget d "trace_id" with
      | none => Except.ok genId
      | some (.str s) => Except.ok s
      | some _ => Except.error "trace_id must be a string")
    let tags ← (match dget d "tags" with
      | none => Except.ok []
      | some (.arr xs) => (strsOf xs).map normalizeTags
      | some _ => Except.error "tags must be a list")
    let env ← (match dget d "environment" with
      | none => Except.ok none
      | some .null => Except.ok none
      | some (.obj e) => Except.ok (some e)
      | some _ => Except.error "environment must be an object or null")
    Except.ok { timestamp := ts, trace_id := tid, tags := tags, environment := env }
  | _ => .error "context must be an object"

/-- `schema_version: str` with default `"0.1.0"`. -/
def parseSchemaVersion (d : Payload) : Except String String :=
  match dget d "schema_version" with
  | none => .ok "0.1.0"
  | some (.str s) => .ok s
  | some _ => .error "schema_version must be a string"

/-- The `execution_steps` field (required). -/
def parseStepsField (d : Payload) : Except String (List ExecutionStep) :=
  match dget d "execution_steps" with
  | none => .error "execution_steps is required"
  | some sj => parseExecutionSteps sj

/-- The `context` field, defaulting to a fresh `TraceContext()`. -/
def parseContextField (genId now : String) (d : Payload) : Except String TraceContext :=
  match dget d "context" with
  | none => .ok { timestamp := now, trace_id := genId, tags := [],
                  environment := none }
  | some cj => parseContext genId now cj

/-- The `domain` field with its lowercasing validator. -/
def parseDomainField (d : Payload) : Except String (Option String) :=
  match dget d "domain" with
  | none => .ok none
  | some .null => .ok none
  | some (.str s) => .ok (normalizeDomain s)
  | some _ => .error "domain must be a string or null"

/-- The `complexity` enum field. -/
def parseComplexityField (d : Payload) : Except String (Option Complexity) :=
  match dget d "complexity" with
  | none => .ok none
  | some .null => .ok none
  | some (.str s) =>
    (match complexityOfStr s with
      | some c => .ok (some c)
      | none => .error "complexity must be simple, moderate or complex")
  | some _ => .error "complexity must be a string or null"

/-- `ExecutionTrace.model_validate` over a decoded payload: enforces field
presence, minimum lengths, enum membership, the tag and domain validators and
strictly sequential step numbers. Unknown keys are ignored (pydantic default
`extra="ignore"`). `genId`/`now` stand for the context `default_factory`
values. -/
def parseTrace (genId now : String) (j : Json) : Except String ExecutionTrace :=
  match j with
  | .obj d => do
    let sv ← parseSchemaVersion d
    let ps ← reqStr d "problem_statement" 10
    let oc ← reqStr d "outcome" 5
    let ss ← parseStepsField d
    let cx ← parseContextField genId now d
    let su ← optBoolDefaultTrue d "success"
    let dm ← parseDomainField d
    let cp ← parseComplexityField d
    Except.ok { schema_version := sv, problem_statement := ps, outcome := oc,
                execution_steps := ss, context := cx, success := su,
                domain := dm, complexity := cp }
  | _ => .error "trace payload must be an object"

/-! ## Serialization (`ExecutionTrace.model_dump(mode="json")`) -/

def dumpOptStr : Option String → Json
  | none => .null
  | some s => .str s

def dumpStep (s : ExecutionStep) : Json :=
  .obj [("step_number", .num s.step_number),
        ("action", .str s.action.toStr),
        ("content", .str s.content),
        ("success", .bool s.success),
        ("error_message", dumpOptStr s.error_message)]

def dumpContextFields (c : TraceContext) : Payload :=
  [("timestamp", .str c.timestamp),
   ("trace_id", .str c.trace_id),
   ("tags", .arr (c.tags.map .str)),
   ("environment", match c.environment with
     | none => .null
     | some e => .obj e)]

def dumpContext (c : TraceContext) : Json :=
  .obj (dumpContextFields c)

/-- The field list of `model_dump(mode="json")`: the full field set in
declaration order, with `datetime` already in its ISO string form and `None`
as JSON null. -/
def dumpFields (t : ExecutionTrace) : Payload :=
  [("schema_version", .str t.schema_version),
   ("problem_statement", .str t.problem_statement),
   ("outcome", .str t.outcome),
   ("execution_steps", .arr (t.execution_steps.map dumpStep)),
   ("context", dumpContext t.context),
   ("success", .bool t.success),
   ("domain", dumpOptStr t.domain),
   ("complexity", dumpOptStr (t.complexity.map Complexity.toStr))]

/-- `model_dump(mode="json")` as a JSON value. -/
def dumpTrace (t : ExecutionTrace) : Json :=
  .obj (dumpFields t)

/-! ## Schema migration (`palimpsest/models/migrations.py`) -/

def CURRENT_SCHEMA_VERSION : String := "0.1.0"

/-- `detect_schema_version` (migrations.py lines 65-81): an explicit
`schema_version` value wins, absence means the pre-versioned sentinel
`"0.0.1"`. (A non-string version value never occurs in decoded trace
payloads.) -/
def detectSchemaVersion (d : Payload) : String :=
  match dget d "schema_version" with
  | some (.str v) => v
  | some _ => ""
  | none => "0.0.1"

/-- `is_migration_needed` (migrations.py lines 154-169). -/
def isMigrationNeeded (d : Payload) : Bool :=
  detectSchemaVersion d ≠ CURRENT_SCHEMA_VERSION

/-- `migrate_0_0_1_to_0_1_0` (migrations.py lines 175-205): stamps the version,
creates a default `context` when absent — with a fixed timestamp, a
`migrated-{hash(str(trace_data))}` placeholder id, empty tags and a
`metadata` entry `{"migrated_from": "0.0.1"}` — and defaults a missing
`success` to `True`. `pyHash` stands for CPython's implementation-defined
`hash`. -/
def migrate_0_0_1_to_0_1_0 (pyHash : Payload → Int) (d : Payload) : Payload :=
  let m := dset d "schema_version" (.str "0.1.0")
  let m := if dmem m "context" then m else
    dset m "context" (.obj
      [("timestamp", .str "2025-01-01T00:00:00Z"),
       ("trace_id", .str ("migrated-" ++ toString (pyHash d))),
       ("tags", .arr []),
       ("metadata", .obj [("migrated_from", .str "0.0.1")])])
  if dmem m "success" then m else dset m "success" (.bool true)

/-- The migration registry `MIGRATIONS` (migrations.py line 19): lookup of the
registered transformation for an exact `(from, to)` pair; only
`"0.0.1"->"0.1.0"` is registered. -/
def migrationFor (pyHash : Payload → Int) (fromV toV : String) :
    Option (Payload → Payload) :=
  if fromV = "0.0.1" ∧ toV = "0.1.0" then some (migrate_0_0_1_to_0_1_0 pyHash)
  else none

/-- `migrate_trace` (migrations.py lines 84-125): returns a copy unchanged when
already at the target version, otherwise applies the registered direct
transformation and re-stamps `schema_version` with the target, or fails when
no path is registered. -/
def migrateTrace (pyHash : Payload → Int) (d : Payload) (target : String) :
    Except String Payload :=
  let current := detectSchemaVersion d
  if current = target then .ok d
  else
    match migrationFor pyHash current target with
    | none => .error ("No migration path found from " ++ current ++ " to " ++ target)
    | some f => .ok (dset (f d) "schema_version" (.str target))

/-- `ExecutionTrace.model_validate_with_migration` (models/trace.py lines
169-193): migrate when needed, mark the payload (and a copied `context`
sub-dict) with `_from_storage` flags, then validate. The flags are unknown
keys and are ignored by validation. -/
def modelValidateWithMigration (pyHash : Payload → Int) (genId now : String)
    (d : Payload) : Except String ExecutionTrace := do
  let d ← if isMigrationNeeded d then migrateTrace pyHash d CURRENT_SCHEMA_VERSION
          else Except.ok d
  let d := match dget d "context" with
    | some (.obj c) => dset d "context" (.obj (dset c "_from_storage" (.bool true)))
    | _ => d
  let d := dset d "_from_storage" (.bool true)
  parseTrace genId now (.obj d)

/-! ## Exceptions (`palimpsest/exceptions.py`) -/

/-- The closed exception taxonomy of `exceptions.py`: `PalimpsestError` and its
subclasses `ValidationError`, `StorageError`, `IndexError`, `SearchError`.
There is no `NotFoundError` class anywhere in the codebase. -/
inductive PalErr where
  | palimpsestError (msg : String)
  | validationError (msg : String)
  | storageError (msg : String)
  | indexError (msg : String)
  | searchError (msg : String)
deriving Repr, DecidableEq

/-- The Python class name of an exception value, which is what a caller's
`except SomeClass` clause discriminates on. -/
def PalErr.className : PalErr → String
  | .palimpsestError _ => "PalimpsestError"
  | .validationError _ => "ValidationError"
  | .storageError _ => "StorageError"
  | .indexError _ => "IndexError"
  | .searchError _ => "SearchError"

/-! ## Record Store (`palimpsest/storage/file_manager.py`) -/

/-- The trace directory: one JSON file per trace id. The list is kept ordered
by file modification time, newest first — `list_traces` sorts by `st_mtime`
descending, and every save (re)writes its file, making it the newest. -/
abbrev FMState := List (String × Json)

def getFile (st : FMState) (tid : String) : Option Json :=
  match st with
  | [] => none
  | (k, v) :: rest => if k = tid then some v else getFile rest tid

/-- Writing a file moves it to the head (newest modification time). -/
def putFile (st : FMState) (tid : String) (content : Json) : FMState :=
  (tid, content) :: st.filter (fun f => f.1 ≠ tid)

/-- `TraceFileManager.save_trace` (file_manager.py lines 75-119): assigns a
fresh id when the trace has none (empty string is falsy) or carries a
`migrated-` placeholder, mutates `trace.context.trace_id` accordingly,
serializes with `model_dump(mode="json")` and writes atomically. Returns the
id, the (possibly mutated) trace and the new store state. `freshId` stands for
the generated `{timestamp}_{uuid-prefix}` identifier. -/
def saveTrace (st : FMState) (freshId : String) (t : ExecutionTrace) :
    String × ExecutionTrace × FMState :=
  let tid := if t.context.trace_id = "" || pyStartsWith t.context.trace_id "migrated-"
             then freshId else t.context.trace_id
  let t' := { t with context := { t.context with trace_id := tid } }
  (tid, t', putFile st tid (dumpTrace t'))

/-- `TraceFileManager.load_trace` (file_manager.py lines 121-152): fails with
`StorageError("Trace {id} not found")` when no file exists, otherwise decodes
the JSON and validates it through `model_validate_with_migration`; any
validation failure is wrapped into a `StorageError`. -/
def loadTrace (pyHash : Payload → Int) (genId now : String) (st : FMState)
    (tid : String) : Except PalErr ExecutionTrace :=
  match getFile st tid with
  | none => .error (.storageError ("Trace " ++ tid ++ " not found"))
  | some (.obj d) =>
    match modelValidateWithMigration pyHash genId now d with
    | .ok t => .ok t
    | .error e => .error (.storageError ("Failed to load trace " ++ tid ++ ": " ++ e))
  | some _ => .error (.storageError ("Failed to load trace " ++ tid ++ ": not an object"))

/-- `TraceFileManager.delete_trace` (file_manager.py lines 154-178): removes
the file and reports whether it existed; a missing file yields `False`, not an
error. -/
def deleteTraceFM (st : FMState) (tid : String) : Bool × FMState :=
  if (getFile st tid).isSome then (true, st.filter (fun f => f.1 ≠ tid))
  else (false, st)

/-- `TraceFileManager.list_traces` (file_manager.py lines 180-214): all ids
sorted by modification time descending (the state order), truncated to `limit`
when one is given. -/
def listTracesFM (st : FMState) (limit : Option Nat) : List String :=
  let ids := st.map Prod.fst
  match limit with
  | some n => ids.take n
  | none => ids

/-! ## Search Index (`palimpsest/storage/indexer.py`)

The index is a SQLite database with two coupled projections of each trace id:
the `traces` table (structured metadata, `trace_id TEXT PRIMARY KEY`) and the
`traces_fts` FTS5 virtual table (full text, `trace_id UNINDEXED`, no
uniqueness constraint of any kind). Both are modelled as row lists with the
SQL statements' semantics. -/

/-- One row of the `traces` metadata table (indexer.py lines 86-102). -/
structure MetaRow where
  trace_id : String
  problem_statement : String
  outcome : String
  domain : Option String
  complexity : Option String
  success : Bool
  timestamp : String
  tags : String
  execution_steps_count : Nat
deriving Repr, DecidableEq

/-- One row of the `traces_fts` FTS5 table (indexer.py lines 104-116). -/
structure FtsRow where
  trace_id : String
  problem_statement : String
  outcome : String
  execution_steps_content : String
  tags : String
deriving Repr, DecidableEq

structure IndexDB where
  traces : List MetaRow
  fts : List FtsRow
deriving Repr, DecidableEq

/-- `" ".join(trace.context.tags)` (empty string for no tags). -/
def tagsText (t : ExecutionTrace) : String :=
  pyJoin " " t.context.tags

/-- `_extract_steps_content` (indexer.py lines 199-208): `"{action}: {content}"`
per step, `"ERROR: {message}"` after a failed step, joined with `" | "`. -/
def extractStepsContent (t : ExecutionTrace) : String :=
  pyJoin " | " (t.execution_steps.flatMap (fun s =>
    (s.action.toStr ++ ": " ++ s.content) ::
      (match s.error_message with
        | some m => ["ERROR: " ++ m]
        | none => [])))

def metaRowOf (t : ExecutionTrace) : MetaRow :=
  { trace_id := t.context.trace_id,
    problem_statement := t.problem_statement,
    outcome := t.outcome,
    domain := t.domain,
    complexity := t.complexity.map Complexity.toStr,
    success := t.success,
    timestamp := t.context.timestamp,
    tags := tagsText t,
    execution_steps_count := t.execution_steps.length }

def ftsRowOf (t : ExecutionTrace) : FtsRow :=
  { trace_id := t.context.trace_id,
    problem_statement := t.problem_statement,
    outcome := t.outcome,
    execution_steps_content := extractStepsContent t,
    tags := tagsText t }

/-- `TraceIndexer.index_trace` (indexer.py lines 130-148), with the semantics
of its two SQL statements:
- `_insert_trace_metadata` runs `INSERT OR REPLACE INTO traces ...`; since
  `trace_id` is the PRIMARY KEY, an existing row for the id is replaced.
- `_insert_trace_fts` runs `INSERT OR REPLACE INTO traces_fts ...`; an FTS5
  virtual table has no PRIMARY KEY or UNIQUE constraint and the statement
  names no rowid, so no conflict can arise and `OR REPLACE` degenerates to a
  plain `INSERT`: a new row is appended unconditionally. -/
def indexTrace (t : ExecutionTrace) (db : IndexDB) : IndexDB :=
  { traces := db.traces.filter (fun r => r.trace_id ≠ t.context.trace_id)
                ++ [metaRowOf t],
    fts := db.fts ++ [ftsRowOf t] }

/-- `TraceIndexer.remove_trace` (indexer.py lines 210-229): deletes every row
of both projections for the id; removing an absent id is a no-op. -/
def removeTrace (tid : String) (db : IndexDB) : IndexDB :=
  { traces := db.traces.filter (fun r => r.trace_id ≠ tid),
    fts := db.fts.filter (fun r => r.trace_id ≠ tid) }

/-! ### Query building (`_build_fts_query`) -/

/-- Python `str.split()` with no argument: split on runs of whitespace,
producing no empty tokens. -/
def splitWsAux (cur : List Char) : List Char → List String
  | [] => if cur.isEmpty then [] else [String.mk cur.reverse]
  | c :: rest =>
    if c.isWhitespace then
      if cur.isEmpty then splitWsAux [] rest
      else String.mk cur.reverse :: splitWsAux [] rest
    else splitWsAux (c :: cur) rest

def pySplitWs (s : String) : List String :=
  splitWsAux [] s.data

/-- The fixed character list of `_build_fts_query` (indexer.py line 294). -/
def ftsSpecialChars : List Char := ['.', '"', '(', ')', '*', '^', '$']

/-- The per-token transformation of `_build_fts_query`: a token containing one
of the listed characters is wrapped in double quotes as `f'"{word}"'` (no
escaping of characters inside the token); any other token passes through. -/
def escapeWord (w : String) : String :=
  if w.data.any (fun c => ftsSpecialChars.contains c) then "\"" ++ w ++ "\""
  else w

/-- Python `" OR ".join(words)`. -/
def pyJoinOr : List String → String
  | [] => ""
  | [w] => w
  | w :: ws => w ++ " OR " ++ pyJoinOr ws

/-- `_build_fts_query` (indexer.py lines 287-302): whitespace tokenization,
per-token quoting, a single token returned as is, multiple tokens combined
with `" OR ".join`. -/
def buildFtsQuery (q : String) : String :=
  let escaped := (pySplitWs q).map escapeWord
  if escaped.length = 1 then escaped.headD ""
  else pyJoinOr escaped

/-! ### Search execution -/

/-- The recognized filter keys (engine/indexer contract): presence of a key is
modelled by `some`. -/
structure SearchFilters where
  domain : Option String
  complexity : Option String
  success : Option Bool
  tags : Option (List String)

def noFilters : SearchFilters :=
  { domain := none, complexity := none, success := none, tags := none }

def containsChars (needle : List Char) : List Char → Bool
  | [] => needle.isEmpty
  | c :: rest => isPrefixChars needle (c :: rest) || containsChars needle rest

/-- SQL `hay LIKE '%pat%'`: substring containment, ASCII case-insensitive
(SQLite's default LIKE semantics). -/
def sqlLike (hay pat : String) : Bool :=
  containsChars (asciiLower pat).data (asciiLower hay).data

/-- `_apply_search_filters` (indexer.py lines 304-338) as a row predicate:
AND-combination of exact domain, exact complexity, exact success, and
substring containment of every requested tag in the flattened tag string. A
key whose value is falsy in Python (empty string, empty list) is skipped,
except `success`, which is tested for presence only. -/
def matchesFilters (f : SearchFilters) (r : MetaRow) : Bool :=
  (match f.domain with
    | some d => if d ≠ "" then r.domain == some d else true
    | none => true) &&
  (match f.complexity with
    | some c => if c ≠ "" then r.complexity == some c else true
    | none => true) &&
  (match f.success with
    | some b => r.success == b
    | none => true) &&
  (match f.tags with
    | some ts => if ts.isEmpty then true else ts.all (fun tag => sqlLike r.tags tag)
    | none => true)

/-- Ordered insertion for `ORDER BY traces.timestamp DESC` (the `timestamp`
column is ISO-8601 TEXT, compared lexicographically by SQLite). -/
def insertRowDesc (r : MetaRow) : List MetaRow → List MetaRow
  | [] => [r]
  | x :: xs => if strLeB x.timestamp r.timestamp then r :: x :: xs
               else x :: insertRowDesc r xs

def sortRowsDesc (l : List MetaRow) : List MetaRow :=
  l.foldr insertRowDesc []

/-- Ordered insertion for `ORDER BY rank, traces.timestamp DESC` on the FTS
branch. -/
def insertRanked (p : Int × MetaRow) : List (Int × MetaRow) → List (Int × MetaRow)
  | [] => [p]
  | q :: qs =>
    if p.1 < q.1 || (p.1 == q.1 && strLeB q.2.timestamp p.2.timestamp) then p :: q :: qs
    else q :: insertRanked p qs

def sortRanked (l : List (Int × MetaRow)) : List (Int × MetaRow) :=
  l.foldr insertRanked []

/-- `TraceIndexer.search_traces` (indexer.py lines 231-354). A non-blank query
takes the FTS branch: rows of `traces_fts` matching the built query (`ftsMatch`
abstracts FTS5 `MATCH` together with its `bm25` rank), joined to `traces` by
id, filtered, ordered by rank then timestamp descending, limited. A blank
query (`query.strip()` falsy) skips full-text matching entirely: rows of
`traces` are filtered, ordered by timestamp descending only, and limited. -/
def searchTraces (ftsMatch : String → FtsRow → Option Int) (db : IndexDB)
    (query : String) (f : SearchFilters) (lim : Nat) : List String :=
  if pyStrip query ≠ "" then
    let fq := buildFtsQuery (pyStrip query)
    let cands := db.fts.filterMap (fun fr =>
      match ftsMatch fq fr with
      | some rank =>
        (match db.traces.find? (fun mr => mr.trace_id == fr.trace_id) with
          | some mr => if matchesFilters f mr then some (rank, mr) else none
          | none => none)
      | none => none)
    ((sortRanked cands).take lim).map (fun p => p.2.trace_id)
  else
    ((sortRowsDesc (db.traces.filter (matchesFilters f))).take lim).map MetaRow.trace_id

/-! ## Orchestration (`palimpsest/engine.py`) -/

structure EngineState where
  files : FMState
  db : IndexDB

/-- The data-assembly steps of `validate_and_enrich` (engine.py lines
106-116): shallow-copy the input, ensure a `context` key, and store the
environment under it. `env_data` must be present and truthy (a non-empty
dict) for the environment write; writing into a non-dict `context` value is a
`TypeError`. -/
def assembleData (td : Payload) (env : Option Payload) : Except String Payload :=
  let data := if dmem td "context" then td else dset td "context" (.obj [])
  match env with
  | some e =>
    if e.isEmpty then .ok data
    else
      match dget data "context" with
      | some (.obj c) => .ok (dset data "context" (.obj (dset c "environment" (.obj e))))
      | some _ => .error "TypeError: context item assignment"
      | none => .ok data
  | none => .ok data

/-- `enumerate(steps, start=n)` assignment loop: set each step's number to its
position counted from `n`. -/
def renumberFrom (n : Int) : List ExecutionStep → List ExecutionStep
  | [] => []
  | s :: rest => { s with step_number := n } :: renumberFrom (n + 1) rest

/-- `_ensure_sequential_steps` (engine.py lines 130-138): renumber every step
to its position + 1 (`enumerate(..., start=1)`). -/
def ensureSequentialSteps (t : ExecutionTrace) : ExecutionTrace :=
  { t with execution_steps := renumberFrom 1 t.execution_steps }

/-- `PalimpsestEngine.validate_and_enrich` (engine.py lines 90-128): assemble
the payload, run pydantic validation by constructing `ExecutionTrace(**data)`,
then renumber steps; every failure inside the `try` block is wrapped into a
`ValidationError`. -/
def validateAndEnrich (genId now : String) (td : Payload) (env : Option Payload) :
    Except PalErr ExecutionTrace :=
  match assembleData td env with
  | .error m => .error (.validationError ("Trace validation failed: " ++ m))
  | .ok data =>
    match parseTrace genId now (.obj data) with
    | .error m => .error (.validationError ("Trace validation failed: " ++ m))
    | .ok t => .ok (ensureSequentialSteps t)

/-- The net effect of `validate_and_enrich` on the CALLER's `trace_data`
dictionary. Line 108 takes a SHALLOW copy (`trace_data.copy()`), so the
top-level dict is protected, but a nested `context` dict is shared between
the copy and the caller: when the caller supplied a `context` dict and a
truthy `env_data` arrives, line 116 writes `environment` into the caller's
own nested dict. In every other case the caller's data is untouched. -/
def enrichCallerEffect (td : Payload) (env : Option Payload) : Payload :=
  match env with
  | some e =>
    if e.isEmpty then td
    else
      match dget td "context" with
      | some (.obj c) => dset td "context" (.obj (dset c "environment" (.obj e)))
      | _ => td
  | none => td

/-- `PalimpsestEngine.create_trace` (engine.py lines 46-88): validate and
enrich, save to the Record Store, then index. `freshId` stands for the id the
file manager would generate; `indexFault` injects an index-backend failure
(`index_trace` wraps any such cause into
`IndexError("Failed to index trace {id}: {cause}")`, and the engine's
`except (StorageError, IndexError)` handler re-raises it). The store state
reached before the failure persists. -/
def engineCreateTrace (genId now freshId : String) (indexFault : Option String)
    (td : Payload) (env : Option Payload) (st : EngineState) :
    Except PalErr String × EngineState :=
  match validateAndEnrich genId now td env with
  | .error e => (.error e, st)
  | .ok t =>
    let (tid, t', files') := saveTrace st.files freshId t
    match indexFault with
    | some cause =>
      (.error (.indexError ("Failed to index trace " ++ tid ++ ": " ++ cause)),
       { files := files', db := st.db })
    | none => (.ok tid, { files := files', db := indexTrace t' st.db })

/-- `PalimpsestEngine.get_trace` (engine.py lines 211-231). -/
def engineGetTrace (pyHash : Payload → Int) (genId now : String)
    (st : EngineState) (tid : String) : Except PalErr ExecutionTrace :=
  loadTrace pyHash genId now st.files tid

/-- `PalimpsestEngine.list_traces` (engine.py lines 233-264): ids newest first
from the file manager, each loaded; a trace that fails to load is skipped with
a warning. -/
def engineListTraces (pyHash : Payload → Int) (genId now : String)
    (st : EngineState) (lim : Nat) : List ExecutionTrace :=
  (listTracesFM st.files (some lim)).filterMap (fun tid =>
    match loadTrace pyHash genId now st.files tid with
    | .ok t => some t
    | .error _ => none)

/-- `PalimpsestEngine.delete_trace` (engine.py lines 266-298): delete the file
first; when `delete_trace` reported `False` (file absent) raise
`StorageError("Trace {id} not found")` without touching the index; otherwise
remove the id from both index projections and return `True`. -/
def engineDeleteTrace (st : EngineState) (tid : String) :
    Except PalErr Bool × EngineState :=
  let (deleted, files') := deleteTraceFM st.files tid
  if deleted then (.ok true, { files := files', db := removeTrace tid st.db })
  else (.error (.storageError ("Trace " ++ tid ++ " not found")), st)

/-- Every attribute defined on the `TraceIndexer` class in
`storage/indexer.py` (its `def` statements, in order). -/
def traceIndexerMethods : List String :=
  ["__init__", "_ensure_directory", "_init_database", "_configure_database",
   "_create_main_table", "_create_fts_table", "_create_indexes", "index_trace",
   "_insert_trace_metadata", "_insert_trace_fts", "_extract_steps_content",
   "remove_trace", "search_traces", "_build_search_query", "_build_fts_query",
   "_apply_search_filters", "_add_ordering_and_limit", "_execute_search",
   "get_trace_metadata", "get_stats", "rebuild_index"]

def attributeErrorMsg (cls attr : String) : String :=
  "'" ++ cls ++ "' object has no attribute '" ++ attr ++ "'"

/-- `PalimpsestEngine.rebuild_index` (engine.py lines 333-370). Its first
statement executes `self.indexer.clear_index()` (line 347), but `TraceIndexer`
defines no attribute named `clear_index` (see `traceIndexerMethods`), so
Python raises `AttributeError` before any index or store operation runs; the
`except Exception` handler at line 368 wraps it into `PalimpsestError`. The
operation therefore always fails with an error and leaves the state as is. -/
def engineRebuildIndex (st : EngineState) : Except PalErr Nat × EngineState :=
  (.error (.palimpsestError
    ("Failed to rebuild index: " ++ attributeErrorMsg "TraceIndexer" "clear_index")), st)

/-! ## Validity of a constructed trace

`validTrace` collects exactly the invariants that pydantic validation
establishes on every successfully constructed, schema-current
`ExecutionTrace`: field lengths, per-step constraints, sequential step
numbers, and the idempotent normal forms the `tags` and `domain` validators
leave behind. -/

def validTrace (t : ExecutionTrace) : Bool :=
  (t.schema_version == CURRENT_SCHEMA_VERSION) &&
  decide (10 ≤ t.problem_statement.length) &&
  decide (5 ≤ t.outcome.length) &&
  !t.execution_steps.isEmpty &&
  t.execution_steps.all (fun s => decide (1 ≤ s.step_number) &&
                                  decide (1 ≤ s.content.length)) &&
  seqFrom 1 t.execution_steps &&
  (normalizeTags t.context.tags == t.context.tags) &&
  (match t.domain with
    | none => true
    | some d => normalizeDomain d == some d)

/-! ## The FTS5 query-string grammar fragment

`search_traces` hands `_build_fts_query`'s output to SQLite as
`traces_fts MATCH ?`. The relevant fragment of the FTS5 query grammar: a
*string* is either a bareword made of alphanumeric characters, `_`, or code
points ≥ `0x80` (the uppercase keywords `OR`/`AND`/`NOT`/`NEAR` are operators,
not barewords), or a double-quoted run in which a literal `"` must be written
doubled (`""`); strings at the top level may be combined with the infixed
`OR` operator. The parser below decides whether an output is well-formed in
this fragment and which literal tokens it denotes. -/

def fts5BarewordChar (c : Char) : Bool :=
  c.isAlphanum || c = '_' || decide (0x80 ≤ c.toNat)

def fts5Keywords : List String := ["OR", "AND", "NOT", "NEAR"]

/-- Scan the remainder of a double-quoted FTS5 string (the opening quote
already consumed): `""` is a literal quote, a single `"` closes the string. -/
def parseQuoted : List Char → Option (List Char × List Char)
  | [] => none
  | c :: rest =>
    if c = '"' then
      match rest with
      | c2 :: rest2 =>
        if c2 = '"' then (parseQuoted rest2).map (fun p => ('"' :: p.1, p.2))
        else some ([], rest)
      | [] => some ([], [])
    else (parseQuoted rest).map (fun p => (c :: p.1, p.2))

/-- Parse one FTS5 string (quoted or bareword) at the head of the input,
returning the token it matches literally and the unconsumed remainder. -/
def parsePhrase (cs : List Char) : Option (String × List Char) :=
  match cs with
  | [] => none
  | c :: rest =>
    if c = '"' then
      match parseQuoted rest with
      | some p => some (String.mk p.1, p.2)
      | none => none
    else
      let tk := (c :: rest).takeWhile fts5BarewordChar
      if tk.isEmpty then none
      else if fts5Keywords.contains (String.mk tk) then none
      else some (String.mk tk, (c :: rest).dropWhile fts5BarewordChar)

/-- Parse a top-level `OR`-combination of FTS5 strings; `fuel` bounds the
number of tokens. -/
def parseOrAux (fuel : Nat) (cs : List Char) : Option (List String) :=
  match fuel with
  | 0 => none
  | fuel + 1 =>
    match parsePhrase cs with
    | none => none
    | some (w, rest) =>
      if rest.isEmpty then some [w]
      else
        match rest with
        | c1 :: c2 :: c3 :: c4 :: rest2 =>
          if c1 = ' ' ∧ c2 = 'O' ∧ c3 = 'R' ∧ c4 = ' ' then
            (match parseOrAux fuel rest2 with
              | some ws => some (w :: ws)
              | none => none)
          else none
        | _ => none

/-- A complete query as an `OR`-list of literally-matched tokens. -/
def fts5ParseOr (s : String) : Option (List String) :=
  parseOrAux (s.length + 1) s.data

/-- A complete query consisting of one single literally-matched token. -/
def fts5ParsePhraseWhole (s : String) : Option String :=
  match parsePhrase s.data with
  | some (w, []) => some w
  | _ => none

/-- Modelled from the spec: "tokens containing characters meaningful to the
underlying text-match syntax must be quoted/escaped so they match literally".
In the FTS5 grammar the quoting that matches an arbitrary token literally
wraps it in double quotes and doubles every embedded `"`. -/
def fts5QuoteLit (w : String) : String :=
  "\"" ++ String.mk (w.data.flatMap (fun c => if c = '"' then ['"', '"'] else [c])) ++ "\""

/-! ## Concrete sample data used by counterexamples and witnesses -/

def emptyDB : IndexDB := { traces := [], fts := [] }

def emptyEngine : EngineState := { files := [], db := emptyDB }

/-- A well-formed creation payload (no `context` key). -/
def samplePayload : Payload :=
  [("problem_statement", .str "Fix async timeout in API endpoint"),
   ("outcome", .str "Timeout fixed"),
   ("execution_steps", .arr
     [.obj [("step_number", .num 1), ("action", .str "analyze"),
            ("content", .str "Found the bug")],
      .obj [("step_number", .num 2), ("action", .str "implement"),
            ("content", .str "Fixed the bug")]])]

/-- Raw step objects numbered `[1, 2, 4]`. -/
def nonSeqStepsJson : List Json :=
  [.obj [("step_number", .num 1), ("action", .str "analyze"),
         ("content", .str "first")],
   .obj [("step_number", .num 2), ("action", .str "implement"),
         ("content", .str "second")],
   .obj [("step_number", .num 4), ("action", .str "test"),
         ("content", .str "fourth")]]

/-- The element-wise validation of `nonSeqStepsJson` (valid steps, bad
numbering). -/
def nonSeqSteps : List ExecutionStep :=
  [{ step_number := 1, action := .analyze, content := "first", success := true,
     error_message := none },
   { step_number := 2, action := .implement, content := "second", success := true,
     error_message := none },
   { step_number := 4, action := .test, content := "fourth", success := true,
     error_message := none }]

/-- A payload whose steps are numbered `[1, 2, 4]`. -/
def nonSeqPayload : Payload :=
  [("problem_statement", .str "Steps skip a number here"),
   ("outcome", .str "rejected input"),
   ("execution_steps", .arr nonSeqStepsJson)]

/-- The trace `validate_and_enrich` constructs from `samplePayload` with the
generation oracle `genId = "gid"`, `now = "now0"` and no environment data. -/
def sampleCreated : ExecutionTrace :=
  { schema_version := "0.1.0",
    problem_statement := "Fix async timeout in API endpoint",
    outcome := "Timeout fixed",
    execution_steps :=
      [{ step_number := 1, action := .analyze, content := "Found the bug",
         success := true, error_message := none },
       { step_number := 2, action := .implement, content := "Fixed the bug",
         success := true, error_message := none }],
    context := { timestamp := "now0", trace_id := "gid", tags := [],
                 environment := none },
    success := true, domain := none, complexity := none }

/-- A legacy payload: no `schema_version`, no `context` (pre-0.1.0 shape). -/
def legacyPayload : Payload :=
  [("problem_statement", .str "Legacy trace without version"),
   ("outcome", .str "Successfully migrated"),
   ("execution_steps", .arr
     [.obj [("step_number", .num 1), ("action", .str "test"),
            ("content", .str "legacy content")]])]

def mkStep (n : Int) (c : String) : ExecutionStep :=
  { step_number := n, action := .analyze, content := c, success := true,
    error_message := none }

/-- A concrete valid trace. -/
def sampleTrace : ExecutionTrace :=
  { schema_version := "0.1.0",
    problem_statement := "Frontend performance optimization",
    outcome := "Latency reduced",
    execution_steps := [mkStep 1 "Profiled the rendering path"],
    context := { timestamp := "2025-06-01T10:00:00", trace_id := "t1",
                 tags := ["perf"], environment := none },
    success := true, domain := none, complexity := none }

/-- The same trace id with different field values (a re-index). -/
def sampleTrace2 : ExecutionTrace :=
  { sampleTrace with
    problem_statement := "Updated frontend performance work",
    outcome := "Latency reduced further" }

/-- A creation payload that carries its own (empty) nested `context` dict. -/
def c10Input : Payload :=
  [("problem_statement", .str "Some problem statement"),
   ("outcome", .str "some outcome"),
   ("execution_steps", .arr
     [.obj [("step_number", .num 1), ("action", .str "debug"),
            ("content", .str "investigated")]]),
   ("context", .obj [])]

/-- A non-empty environment snapshot, as `auto_context` would supply. -/
def c10Env : Payload := [("python_version", .str "3.11.2")]

/-! # Theorems

General lemmas about the embedding first, then one theorem (with its
counterexample and witness where required) per claim. -/

attribute [ext] ExecutionStep TraceContext ExecutionTrace

theorem stringMk_data (s : String) : String.mk s.data = s := by
  cases s
  rfl

theorem stepActionOfStr_toStr (a : StepAction) : stepActionOfStr a.toStr = some a := by
  cases a <;> rfl

theorem complexityOfStr_toStr (c : Complexity) : complexityOfStr c.toStr = some c := by
  cases c <;> rfl

theorem strsOf_map_str (l : List String) : strsOf (l.map Json.str) = .ok l := by
  induction l with
  | nil => rfl
  | cons a l ih => simp [strsOf, ih, Bind.bind, Except.bind]

theorem parseStep_dump (s : ExecutionStep) (h1 : 1 ≤ s.step_number)
    (h2 : 1 ≤ s.content.length) : parseStep (dumpStep s) = .ok s := by
  have hn : ¬ s.step_number < 1 := by omega
  have hc : ¬ s.content.length < 1 := by omega
  cases hm : s.error_message with
  | none =>
    simp [parseStep, dumpStep, dget, reqStr, optBoolDefaultTrue, optStrField,
          stepActionOfStr_toStr, dumpOptStr, hn, hc, hm, Bind.bind, Except.bind]
    exact (ExecutionStep.ext rfl rfl rfl rfl hm.symm)
  | some m =>
    simp [parseStep, dumpStep, dget, reqStr, optBoolDefaultTrue, optStrField,
          stepActionOfStr_toStr, dumpOptStr, hn, hc, hm, Bind.bind, Except.bind]
    exact (ExecutionStep.ext rfl rfl rfl rfl hm.symm)

theorem parseStepList_dump (l : List ExecutionStep)
    (h : ∀ s ∈ l, 1 ≤ s.step_number ∧ 1 ≤ s.content.length) :
    parseStepList (l.map dumpStep) = .ok l := by
  induction l with
  | nil => rfl
  | cons a l ih =>
    have ha := h a (List.mem_cons_self a l)
    have hl := ih (fun s hs => h s (List.mem_cons_of_mem a hs))
    simp [parseStepList, parseStep_dump a ha.1 ha.2, hl, Bind.bind, Except.bind]

theorem parseExecutionSteps_dump (l : List ExecutionStep) (hne : l ≠ [])
    (hseq : seqFrom 1 l = true)
    (h : ∀ s ∈ l, 1 ≤ s.step_number ∧ 1 ≤ s.content.length) :
    parseExecutionSteps (.arr (l.map dumpStep)) = .ok l := by
  simp [parseExecutionSteps, parseStepList_dump l h, hne, hseq, Bind.bind,
        Except.bind, List.isEmpty_iff]

theorem parseContext_flagged (genId now : String) (c : TraceContext)
    (ht : normalizeTags c.tags = c.tags) :
    parseContext genId now (.obj (dset (dumpContextFields c) "_from_storage" (.bool true)))
      = .ok c := by
  cases he : c.environment with
  | none =>
    simp [parseContext, dumpContextFields, dset, dget, strsOf_map_str, ht, he,
          Bind.bind, Except.bind, Except.map]
    exact (TraceContext.ext rfl rfl rfl he.symm)
  | some e =>
    simp [parseContext, dumpContextFields, dset, dget, strsOf_map_str, ht, he,
          Bind.bind, Except.bind, Except.map]
    exact (TraceContext.ext rfl rfl rfl he.symm)

theorem validTrace_spec (t : ExecutionTrace) (h : validTrace t = true) :
    t.schema_version = CURRENT_SCHEMA_VERSION ∧
    10 ≤ t.problem_statement.length ∧
    5 ≤ t.outcome.length ∧
    t.execution_steps ≠ [] ∧
    (∀ s ∈ t.execution_steps, 1 ≤ s.step_number ∧ 1 ≤ s.content.length) ∧
    seqFrom 1 t.execution_steps = true ∧
    normalizeTags t.context.tags = t.context.tags ∧
    (∀ d, t.domain = some d → normalizeDomain d = some d) := by
  simp only [validTrace, Bool.and_eq_true, beq_iff_eq, decide_eq_true_eq,
             Bool.not_eq_true', List.isEmpty_eq_false, List.all_eq_true] at h
  obtain ⟨⟨⟨⟨⟨⟨⟨hsv, h10⟩, h5⟩, hne⟩, hall⟩, hseq⟩, htags⟩, hdom⟩ := h
  refine ⟨hsv, h10, h5, hne, fun s hs => ?_, hseq, htags, fun d hd => ?_⟩
  · have := hall s hs
    simpa [Bool.and_eq_true, decide_eq_true_eq] using this
  · rw [hd] at hdom
    simpa using hdom

theorem mvwm_dumpFields (pyHash : Payload → Int) (genId now : String)
    (t : ExecutionTrace) (h : validTrace t = true) :
    modelValidateWithMigration pyHash genId now (dumpFields t) = .ok t := by
  obtain ⟨hsv, h10, h5, hne, hall, hseq, htags, hdom⟩ := validTrace_spec t h
  have h10' : ¬ t.problem_statement.length < 10 := by omega
  have h5' : ¬ t.outcome.length < 5 := by omega
  obtain ⟨sv, ps, oc, ss, cx, su, dm, cp⟩ := t
  obtain ⟨cts, ctid, ctags, cenv⟩ := cx
  simp only at hall hseq htags hdom h10' h5' hne hsv
  subst hsv
  cases dm with
  | none =>
    cases cenv <;> cases cp <;>
      simp [modelValidateWithMigration, isMigrationNeeded, detectSchemaVersion,
            CURRENT_SCHEMA_VERSION, dumpFields, dumpContext, dumpContextFields,
            dget, dset, parseTrace, parseSchemaVersion, parseStepsField,
            parseContextField, parseDomainField, parseComplexityField,
            parseContext, reqStr, optBoolDefaultTrue,
            h10', h5', parseExecutionSteps_dump ss hne hseq hall, strsOf_map_str,
            htags, dumpOptStr, complexityOfStr_toStr, Bind.bind, Except.bind,
            Except.map]
  | some d =>
    have hd := hdom d rfl
    cases cenv <;> cases cp <;>
      simp [modelValidateWithMigration, isMigrationNeeded, detectSchemaVersion,
            CURRENT_SCHEMA_VERSION, dumpFields, dumpContext, dumpContextFields,
            dget, dset, parseTrace, parseSchemaVersion, parseStepsField,
            parseContextField, parseDomainField, parseComplexityField,
            parseContext, reqStr, optBoolDefaultTrue,
            h10', h5', parseExecutionSteps_dump ss hne hseq hall, strsOf_map_str,
            htags, dumpOptStr, hd, complexityOfStr_toStr, Bind.bind, Except.bind,
            Except.map]

theorem getFile_putFile (st : FMState) (tid : String) (c : Json) :
    getFile (putFile st tid c) tid = some c := by
  simp [getFile, putFile]

theorem validTrace_setId (t : ExecutionTrace) (i : String) :
    validTrace { t with context := { t.context with trace_id := i } } = validTrace t :=
  rfl

theorem load_after_save (pyHash : Payload → Int) (genId now freshId : String)
    (st : FMState) (t : ExecutionTrace) (h : validTrace t = true) :
    loadTrace pyHash genId now (saveTrace st freshId t).2.2 (saveTrace st freshId t).1
      = .ok (saveTrace st freshId t).2.1 := by
  have hvS : validTrace (saveTrace st freshId t).2.1 = true := h
  show loadTrace pyHash genId now
      (putFile st (saveTrace st freshId t).1 (dumpTrace (saveTrace st freshId t).2.1))
      (saveTrace st freshId t).1 = _
  unfold loadTrace
  rw [getFile_putFile]
  simp only [dumpTrace]
  simp only [mvwm_dumpFields pyHash genId now _ hvS]

/-- C6: for every valid `ExecutionTrace`, loading the id returned by `save`
yields exactly the trace that was saved, and the saved trace agrees with the
input trace on every field except possibly `context.trace_id` (which the
store is allowed to assign); in particular `timestamp` is also preserved. -/
theorem c6_save_load_roundtrip (pyHash : Payload → Int)
    (genId now freshId : String) (st : FMState) (t : ExecutionTrace)
    (h : validTrace t = true) :
    loadTrace pyHash genId now (saveTrace st freshId t).2.2 (saveTrace st freshId t).1
        = .ok (saveTrace st freshId t).2.1 ∧
    (saveTrace st freshId t).2.1.schema_version = t.schema_version ∧
    (saveTrace st freshId t).2.1.problem_statement = t.problem_statement ∧
    (saveTrace st freshId t).2.1.outcome = t.outcome ∧
    (saveTrace st freshId t).2.1.execution_steps = t.execution_steps ∧
    (saveTrace st freshId t).2.1.success = t.success ∧
    (saveTrace st freshId t).2.1.domain = t.domain ∧
    (saveTrace st freshId t).2.1.complexity = t.complexity ∧
    (saveTrace st freshId t).2.1.context.timestamp = t.context.timestamp ∧
    (saveTrace st freshId t).2.1.context.tags = t.context.tags ∧
    (saveTrace st freshId t).2.1.context.environment = t.context.environment :=
  ⟨load_after_save pyHash genId now freshId st t h,
   rfl, rfl, rfl, rfl, rfl, rfl, rfl, rfl, rfl, rfl⟩

/-- Witness for C6 at a concrete valid trace. -/
theorem c6_witness :
    validTrace sampleTrace = true ∧
    loadTrace (fun _ => 0) "g" "n" (saveTrace [] "fresh" sampleTrace).2.2
        (saveTrace [] "fresh" sampleTrace).1 =
      .ok (saveTrace [] "fresh" sampleTrace).2.1 :=
  ⟨by decide, (c6_save_load_roundtrip (fun _ => 0) "g" "n" "fresh" [] sampleTrace
      (by decide)).1⟩

/-- C2: indexing the same trace id twice leaves exactly one (latest-valued)
row in the `traces` metadata projection, but TWO rows in the `traces_fts`
full-text projection: `INSERT OR REPLACE` cannot replace in an FTS5 table
that has no uniqueness constraint, so re-indexing duplicates the full-text
row instead of replacing it. This refutes the claim's "exactly one row in
each of the two projections". -/
theorem c2_fts_duplicates :
    ((indexTrace sampleTrace2 (indexTrace sampleTrace emptyDB)).traces.filter
        (fun r => r.trace_id == "t1")) = [metaRowOf sampleTrace2] ∧
    ((indexTrace sampleTrace2 (indexTrace sampleTrace emptyDB)).fts.filter
        (fun r => r.trace_id == "t1")) = [ftsRowOf sampleTrace, ftsRowOf sampleTrace2] ∧
    ((indexTrace sampleTrace2 (indexTrace sampleTrace emptyDB)).fts.filter
        (fun r => r.trace_id == "t1")).length = 2 :=
  ⟨rfl, rfl, rfl⟩

/-- C4: migrating and validating a payload with no `schema_version` and no
`context` stamps the current version, generates a `migrated-<hash>` id,
leaves an empty tag set and a default `success = True` — but the
`migrated_from` marker is written under the unknown `context["metadata"]`
key (not `context["environment"]`), which validation drops: the constructed
trace has `context.environment = none` and carries no marker at all. -/
theorem c4_migration_marker_under_metadata (pyHash : Payload → Int) :
    migrateTrace pyHash legacyPayload "0.1.0" = .ok
      [("problem_statement", .str "Legacy trace without version"),
       ("outcome", .str "Successfully migrated"),
       ("execution_steps", .arr
         [.obj [("step_number", .num 1), ("action", .str "test"),
                ("content", .str "legacy content")]]),
       ("schema_version", .str "0.1.0"),
       ("context", .obj
         [("timestamp", .str "2025-01-01T00:00:00Z"),
          ("trace_id", .str ("migrated-" ++ toString (pyHash legacyPayload))),
          ("tags", .arr []),
          ("metadata", .obj [("migrated_from", .str "0.0.1")])]),
       ("success", .bool true)] ∧
    modelValidateWithMigration pyHash "gid" "now0" legacyPayload = .ok
      { schema_version := "0.1.0",
        problem_statement := "Legacy trace without version",
        outcome := "Successfully migrated",
        execution_steps := [{ step_number := 1, action := .test,
                              content := "legacy content", success := true,
                              error_message := none }],
        context := { timestamp := "2025-01-01T00:00:00Z",
                     trace_id := "migrated-" ++ toString (pyHash legacyPayload),
                     tags := [], environment := none },
        success := true, domain := none, complexity := none } :=
  ⟨rfl, rfl⟩

/-- C5 counterexample: deleting a missing id fails with the plain
`StorageError` class — the same class every other storage failure carries,
and the only storage-related class the codebase defines (`exceptions.py` has
no `NotFoundError`) — so the failure is NOT a distinguished NotFound error
kind distinguishable from a general StorageError. -/
theorem c5_counterexample :
    (engineDeleteTrace emptyEngine "missing").1 =
      .error (.storageError "Trace missing not found") ∧
    PalErr.className (.storageError "Trace missing not found") = "StorageError" :=
  ⟨rfl, rfl⟩

/-- C5 amended: deleting a missing id fails with the generic
`StorageError("Trace {id} not found")` and leaves the whole state — index
included — untouched; deleting an existing id removes the file first and then
removes the id's rows from both index projections, returning `True`. -/
theorem c5_amended (st : EngineState) (tid : String) :
    (getFile st.files tid = none →
      engineDeleteTrace st tid =
        (.error (.storageError ("Trace " ++ tid ++ " not found")), st)) ∧
    (∀ j, getFile st.files tid = some j →
      engineDeleteTrace st tid =
        (.ok true, { files := st.files.filter (fun f => f.1 ≠ tid),
                     db := removeTrace tid st.db })) := by
  constructor
  · intro h
    simp [engineDeleteTrace, deleteTraceFM, h]
  · intro j h
    simp [engineDeleteTrace, deleteTraceFM, h]

/-- Witness for C5 amended: both branches at concrete states. -/
theorem c5_amended_witness :
    engineDeleteTrace emptyEngine "x" =
      (.error (.storageError "Trace x not found"), emptyEngine) ∧
    engineDeleteTrace
        { files := [("t1", .null)], db := emptyDB } "t1" =
      (.ok true, { files := [], db := emptyDB }) := by
  constructor
  · exact (c5_amended emptyEngine "x").1 rfl
  · have h := (c5_amended { files := [("t1", .null)], db := emptyDB } "t1").2 .null rfl
    simpa using h

/-- C7: the orchestration `rebuild_index` never returns a count at all: its
first step calls `self.indexer.clear_index()`, but `TraceIndexer` defines no
`clear_index` attribute, so every call fails with a `PalimpsestError` wrapping
the `AttributeError` and no record is ever re-indexed (the repo's own test
`test_rebuild_index_success` expects the count instead). -/
theorem c7_rebuild_always_fails (st : EngineState) :
    traceIndexerMethods.contains "clear_index" = false ∧
    engineRebuildIndex st =
      (.error (.palimpsestError
        "Failed to rebuild index: 'TraceIndexer' object has no attribute 'clear_index'"),
       st) :=
  ⟨rfl, rfl⟩

/-- C10: `validate_and_enrich` takes only a SHALLOW copy of the caller's
payload, so when the payload carries a nested `context` dict and a truthy
environment is supplied, the caller's own nested dict is mutated in place
(it gains the `environment` entry), contradicting the function's stated
intent of not modifying the input. -/
theorem c10_caller_context_mutated :
    enrichCallerEffect c10Input (some c10Env) =
      [("problem_statement", .str "Some problem statement"),
       ("outcome", .str "some outcome"),
       ("execution_steps", .arr
         [.obj [("step_number", .num 1), ("action", .str "debug"),
                ("content", .str "investigated")]]),
       ("context", .obj [("environment", .obj [("python_version", .str "3.11.2")])])] ∧
    enrichCallerEffect c10Input (some c10Env) ≠ c10Input := by
  constructor
  · rfl
  · intro h
    have h2 : dget (enrichCallerEffect c10Input (some c10Env)) "context" =
        dget c10Input "context" := by rw [h]
    have h3 : dget (enrichCallerEffect c10Input (some c10Env)) "context" =
        some (.obj [("environment", .obj [("python_version", .str "3.11.2")])]) := rfl
    have h4 : dget c10Input "context" = some (.obj []) := rfl
    rw [h3, h4] at h2
    simp at h2

theorem bind_ok_inv {α β : Type} {e : Except String α} {f : α → Except String β}
    {b : β} (h : (e >>= f) = .ok b) : ∃ a, e = .ok a ∧ f a = .ok b := by
  cases e with
  | error m => simp [Bind.bind, Except.bind] at h
  | ok a => exact ⟨a, rfl, by simpa [Bind.bind, Except.bind] using h⟩

theorem parseTrace_ok_steps (genId now : String) (d : Payload) (t : ExecutionTrace)
    (h : parseTrace genId now (.obj d) = .ok t) :
    parseStepsField d = .ok t.execution_steps := by
  simp only [parseTrace] at h
  obtain ⟨sv, h1, h⟩ := bind_ok_inv h
  obtain ⟨ps, h2, h⟩ := bind_ok_inv h
  obtain ⟨oc, h3, h⟩ := bind_ok_inv h
  obtain ⟨ss, h4, h⟩ := bind_ok_inv h
  obtain ⟨cx, h5, h⟩ := bind_ok_inv h
  obtain ⟨su, h6, h⟩ := bind_ok_inv h
  obtain ⟨dm, h7, h⟩ := bind_ok_inv h
  obtain ⟨cp, h8, h⟩ := bind_ok_inv h
  cases h
  simpa using h4

theorem parseExecutionSteps_ok_inv (sj : Json) (ss : List ExecutionStep)
    (h : parseExecutionSteps sj = .ok ss) :
    ∃ xs, sj = .arr xs ∧ parseStepList xs = .ok ss ∧ ss ≠ [] ∧
      seqFrom 1 ss = true := by
  cases sj with
  | arr xs =>
    simp only [parseExecutionSteps] at h
    obtain ⟨l, h1, h2⟩ := bind_ok_inv h
    split_ifs at h2 with hemp hseq
    have hls : l = ss := Except.ok.inj h2
    subst hls
    refine ⟨xs, rfl, h1, fun hnil => ?_, hseq⟩
    rw [hnil] at hemp
    exact hemp rfl
  | null => simp [parseExecutionSteps] at h
  | bool b => simp [parseExecutionSteps] at h
  | num n => simp [parseExecutionSteps] at h
  | str s => simp [parseExecutionSteps] at h
  | obj o => simp [parseExecutionSteps] at h

theorem dget_dset_ne (d : Payload) (k k' : String) (v : Json) (hk : k' ≠ k) :
    dget (dset d k' v) k = dget d k := by
  induction d with
  | nil => simp [dget, dset, hk]
  | cons a rest ih =>
    by_cases hak : a.1 = k'
    · simp [dset, hak, dget, hk]
    · simp [dset, hak, dget, ih]

theorem dget_assembleData (td : Payload) (env : Option Payload) (data : Payload)
    (k : String) (hk : k ≠ "context")
    (h : assembleData td env = .ok data) : dget data k = dget td k := by
  have hb : dget (if dmem td "context" then td
      else dset td "context" (.obj [])) k = dget td k := by
    split
    · rfl
    · exact dget_dset_ne td k "context" (.obj []) (Ne.symm hk)
  cases env with
  | none =>
    simp only [assembleData] at h
    cases h
    exact hb
  | some e =>
    simp only [assembleData] at h
    by_cases hee : e.isEmpty
    · rw [if_pos hee] at h
      cases h
      exact hb
    · rw [if_neg hee] at h
      revert h
      cases hc : dget (if dmem td "context" then td
          else dset td "context" (.obj [])) "context" with
      | none =>
        intro h
        cases h
        exact hb
      | some cj =>
        cases cj with
        | obj c =>
          intro h
          cases h
          rw [dget_dset_ne _ k "context" _ (Ne.symm hk)]
          exact hb
        | null => intro h; exact absurd h (by simp)
        | bool b => intro h; exact absurd h (by simp)
        | num n => intro h; exact absurd h (by simp)
        | str s => intro h; exact absurd h (by simp)
        | arr l => intro h; exact absurd h (by simp)

theorem validateAndEnrich_ok_inv (genId now : String) (td : Payload)
    (env : Option Payload) (t : ExecutionTrace)
    (h : validateAndEnrich genId now td env = .ok t) :
    ∃ data t0, assembleData td env = .ok data ∧
      parseTrace genId now (.obj data) = .ok t0 ∧
      t = ensureSequentialSteps t0 := by
  unfold validateAndEnrich at h
  revert h
  cases h1 : assembleData td env with
  | error m =>
    intro h
    exact absurd h (by simp)
  | ok data =>
    intro h
    dsimp only [] at h
    revert h
    cases h2 : parseTrace genId now (.obj data) with
    | error m =>
      intro h
      exact absurd h (by simp)
    | ok t0 =>
      intro h
      dsimp only [] at h
      cases h
      exact ⟨data, t0, rfl, h2, rfl⟩

theorem seqFrom_renumberFrom (n : Int) (l : List ExecutionStep) :
    seqFrom n (renumberFrom n l) = true := by
  induction l generalizing n with
  | nil => rfl
  | cons s rest ih => simp [renumberFrom, seqFrom, ih]

/-- C3 counterexample: the create-path validation (`validate_and_enrich`)
REJECTS a payload with steps numbered `[1, 2, 4]` instead of renumbering it
to `[1, 2, 3]` and persisting: pydantic's sequential-steps validator runs
while `ExecutionTrace(**data)` is constructed, before the renumbering step
is ever reached. -/
theorem c3_counterexample :
    validateAndEnrich "gid" "now0" nonSeqPayload none =
      .error (.validationError
        "Trace validation failed: Step numbers must be sequential starting from 1") ∧
    ¬ ∃ t, validateAndEnrich "gid" "now0" nonSeqPayload none = .ok t := by
  have h1 : validateAndEnrich "gid" "now0" nonSeqPayload none =
      .error (.validationError
        "Trace validation failed: Step numbers must be sequential starting from 1") := rfl
  refine ⟨h1, ?_⟩
  rintro ⟨t, h⟩
  rw [h1] at h
  exact Except.noConfusion h

/-- C3 amended: non-sequentially numbered steps are rejected by BOTH paths —
raw-input validation (`model_validate` / `ExecutionTrace(**data)`) and the
orchestration create path (`validate_and_enrich`), whose renumbering step
runs only after validation has already succeeded. Consequently every trace
the create path does produce has strictly sequential step numbers starting
from 1. -/
theorem c3_amended (genId now : String) (td : Payload) (env : Option Payload)
    (xs : List Json) (ss : List ExecutionStep) :
    (dget td "execution_steps" = some (.arr xs) → parseStepList xs = .ok ss →
      seqFrom 1 ss = false →
      (¬ ∃ t, parseTrace genId now (.obj td) = .ok t) ∧
      (¬ ∃ t, validateAndEnrich genId now td env = .ok t)) ∧
    (∀ t, validateAndEnrich genId now td env = .ok t →
      seqFrom 1 t.execution_steps = true) := by
  constructor
  · intro hsteps hparse hnonseq
    have hreject : ∀ d : Payload, dget d "execution_steps" = some (.arr xs) →
        ¬ ∃ t, parseTrace genId now (.obj d) = .ok t := by
      rintro d hd ⟨t, ht⟩
      have h4 := parseTrace_ok_steps genId now d t ht
      rw [parseStepsField, hd] at h4
      obtain ⟨xs', hxs', hpl, hne, hseq⟩ := parseExecutionSteps_ok_inv _ _ h4
      injection hxs' with hxx
      subst hxx
      rw [hparse] at hpl
      cases hpl
      rw [hseq] at hnonseq
      exact Bool.noConfusion hnonseq
    constructor
    · exact hreject td hsteps
    · rintro ⟨t, ht⟩
      obtain ⟨data, t0, ha, hp, hte⟩ := validateAndEnrich_ok_inv genId now td env t ht
      have hd : dget data "execution_steps" = some (.arr xs) := by
        rw [dget_assembleData td env data _ (by decide) ha]
        exact hsteps
      exact hreject data hd ⟨t0, hp⟩
  · intro t ht
    obtain ⟨data, t0, ha, hp, hte⟩ := validateAndEnrich_ok_inv genId now td env t ht
    rw [hte]
    exact seqFrom_renumberFrom 1 t0.execution_steps

/-- Witness for C3 amended at the concrete `[1, 2, 4]` payload. -/
theorem c3_witness :
    (¬ ∃ t, parseTrace "gid" "now0" (.obj nonSeqPayload) = .ok t) ∧
    (¬ ∃ t, validateAndEnrich "gid" "now0" nonSeqPayload none = .ok t) :=
  (c3_amended "gid" "now0" nonSeqPayload none nonSeqStepsJson nonSeqSteps).1
    rfl rfl rfl

/-- C1 counterexample: when the indexing step fails after a successful save,
`create_trace` does NOT succeed with the trace id — the engine's
`except (StorageError, IndexError)` handler re-raises the `IndexError` to the
caller. -/
theorem c1_counterexample :
    (engineCreateTrace "gid" "now0" "fresh1" (some "disk full")
        samplePayload none emptyEngine).1 =
      .error (.indexError "Failed to index trace gid: disk full") ∧
    ¬ ∃ tid, (engineCreateTrace "gid" "now0" "fresh1" (some "disk full")
        samplePayload none emptyEngine).1 = .ok tid := by
  have h1 : (engineCreateTrace "gid" "now0" "fresh1" (some "disk full")
      samplePayload none emptyEngine).1 =
      .error (.indexError "Failed to index trace gid: disk full") := rfl
  refine ⟨h1, ?_⟩
  rintro ⟨tid, h⟩
  rw [h1] at h
  exact Except.noConfusion h

/-- C1 amended: when indexing fails after a successful save, `create_trace`
raises the `IndexError` to the caller (the save is not rolled back), and the
saved record remains durable: it is retrievable by id (`get_trace`) and
appears in `list_traces`. -/
theorem c1_amended (pyHash : Payload → Int) (genId now freshId cause : String)
    (td : Payload) (env : Option Payload) (st : EngineState) (t : ExecutionTrace)
    (lim : Nat) (hv : validateAndEnrich genId now td env = .ok t)
    (hvt : validTrace t = true) (hlim : 1 ≤ lim) :
    (engineCreateTrace genId now freshId (some cause) td env st).1 =
      .error (.indexError ("Failed to index trace " ++
        (saveTrace st.files freshId t).1 ++ ": " ++ cause)) ∧
    engineGetTrace pyHash genId now
        (engineCreateTrace genId now freshId (some cause) td env st).2
        (saveTrace st.files freshId t).1 = .ok (saveTrace st.files freshId t).2.1 ∧
    (saveTrace st.files freshId t).2.1 ∈
      engineListTraces pyHash genId now
        (engineCreateTrace genId now freshId (some cause) td env st).2 lim := by
  have hcr : engineCreateTrace genId now freshId (some cause) td env st =
      (.error (.indexError ("Failed to index trace " ++
        (saveTrace st.files freshId t).1 ++ ": " ++ cause)),
       { files := (saveTrace st.files freshId t).2.2, db := st.db }) := by
    unfold engineCreateTrace
    rw [hv]
  rw [hcr]
  refine ⟨rfl, ?_, ?_⟩
  · exact load_after_save pyHash genId now freshId st.files t hvt
  · cases lim with
    | zero => omega
    | succ n =>
      have hload := load_after_save pyHash genId now freshId st.files t hvt
      have hfiles : (saveTrace st.files freshId t).2.2 =
          ((saveTrace st.files freshId t).1,
            dumpTrace (saveTrace st.files freshId t).2.1) ::
          st.files.filter (fun f => f.1 ≠ (saveTrace st.files freshId t).1) := rfl
      show (saveTrace st.files freshId t).2.1 ∈
        (listTracesFM (saveTrace st.files freshId t).2.2 (some (n + 1))).filterMap _
      rw [hfiles] at hload ⊢
      simp only [listTracesFM, List.map_cons, List.take_succ_cons,
                 List.filterMap_cons, hload]
      exact List.mem_cons_self _ _

/-- Witness for C1 amended at a concrete payload and fault. -/
theorem c1_witness :
    (engineCreateTrace "gid" "now0" "fresh1" (some "disk full") samplePayload
        none emptyEngine).1 =
      .error (.indexError ("Failed to index trace " ++
        (saveTrace emptyEngine.files "fresh1" sampleCreated).1 ++ ": " ++ "disk full")) ∧
    engineGetTrace (fun _ => 0) "gid" "now0"
        (engineCreateTrace "gid" "now0" "fresh1" (some "disk full") samplePayload
          none emptyEngine).2
        (saveTrace emptyEngine.files "fresh1" sampleCreated).1 =
      .ok (saveTrace emptyEngine.files "fresh1" sampleCreated).2.1 ∧
    (saveTrace emptyEngine.files "fresh1" sampleCreated).2.1 ∈
      engineListTraces (fun _ => 0) "gid" "now0"
        (engineCreateTrace "gid" "now0" "fresh1" (some "disk full") samplePayload
          none emptyEngine).2 1 :=
  c1_amended (fun _ => 0) "gid" "now0" "fresh1" "disk full" samplePayload none
    emptyEngine sampleCreated 1 rfl (by decide) (by decide)

theorem lexLeB_total (as : List Char) : ∀ bs, lexLeB as bs = true ∨ lexLeB bs as = true := by
  induction as with
  | nil => intro bs; left; rfl
  | cons a as ih =>
    intro bs
    cases bs with
    | nil => right; rfl
    | cons b bs =>
      by_cases hab : a = b
      · subst hab
        simp only [lexLeB, if_pos rfl]
        exact ih bs
      · simp only [lexLeB, if_neg hab, if_neg (Ne.symm hab)]
        rcases lt_or_gt_of_ne hab with h | h
        · left; exact decide_eq_true h
        · right; exact decide_eq_true h

theorem lexLeB_trans (as : List Char) : ∀ bs cs, lexLeB as bs = true →
    lexLeB bs cs = true → lexLeB as cs = true := by
  induction as with
  | nil => intro bs cs _ _; rfl
  | cons a as ih =>
    intro bs cs h1 h2
    cases bs with
    | nil => simp [lexLeB] at h1
    | cons b bs =>
      cases cs with
      | nil => simp [lexLeB] at h2
      | cons c cs =>
        by_cases hab : a = b <;> by_cases hbc : b = c
        · subst hab; subst hbc
          simp only [lexLeB, if_pos rfl] at h1 h2 ⊢
          exact ih bs cs h1 h2
        · subst hab
          simp only [lexLeB, if_pos rfl] at h1
          simp only [lexLeB, if_neg hbc] at h2 ⊢
          exact h2
        · subst hbc
          simp only [lexLeB, if_neg hab] at h1 ⊢
          exact h1
        · simp only [lexLeB, if_neg hab] at h1
          simp only [lexLeB, if_neg hbc] at h2
          have hac : a < c := lt_trans (of_decide_eq_true h1) (of_decide_eq_true h2)
          simp only [lexLeB, if_neg (ne_of_lt hac)]
          exact decide_eq_true hac

theorem strLeB_total (x y : String) : strLeB x y = true ∨ strLeB y x = true :=
  lexLeB_total x.data y.data

theorem strLeB_trans {x y z : String} (h1 : strLeB x y = true)
    (h2 : strLeB y z = true) : strLeB x z = true :=
  lexLeB_trans x.data y.data z.data h1 h2

theorem mem_insertRowDesc {r a : MetaRow} {l : List MetaRow} :
    a ∈ insertRowDesc r l ↔ a = r ∨ a ∈ l := by
  induction l with
  | nil => simp [insertRowDesc]
  | cons x xs ih =>
    simp only [insertRowDesc]
    split
    · simp [List.mem_cons]
    · simp only [List.mem_cons, ih]
      tauto

theorem length_sortRowsDesc (l : List MetaRow) :
    (sortRowsDesc l).length = l.length := by
  have hins : ∀ (r : MetaRow) (m : List MetaRow),
      (insertRowDesc r m).length = m.length + 1 := by
    intro r m
    induction m with
    | nil => rfl
    | cons x xs ih =>
      simp only [insertRowDesc]
      split
      · simp
      · simp [ih]
  induction l with
  | nil => rfl
  | cons x xs ih =>
    show (insertRowDesc x (sortRowsDesc xs)).length = xs.length + 1
    rw [hins, ih]

theorem mem_sortRowsDesc {a : MetaRow} {l : List MetaRow} :
    a ∈ sortRowsDesc l ↔ a ∈ l := by
  induction l with
  | nil => simp [sortRowsDesc]
  | cons x xs ih =>
    rw [show sortRowsDesc (x :: xs) = insertRowDesc x (sortRowsDesc xs) from rfl,
        mem_insertRowDesc, ih, List.mem_cons]

theorem pairwise_insertRowDesc (r : MetaRow) (l : List MetaRow)
    (h : l.Pairwise (fun a b => strLeB b.timestamp a.timestamp = true)) :
    (insertRowDesc r l).Pairwise (fun a b => strLeB b.timestamp a.timestamp = true) := by
  induction l with
  | nil => simp [insertRowDesc]
  | cons x xs ih =>
    rw [List.pairwise_cons] at h
    obtain ⟨hx, hxs⟩ := h
    simp only [insertRowDesc]
    split
    · rename_i hcond
      refine List.Pairwise.cons ?_ (List.Pairwise.cons hx hxs)
      intro y hy
      rcases List.mem_cons.mp hy with rfl | hyxs
      · exact hcond
      · exact strLeB_trans (hx y hyxs) hcond
    · rename_i hcond
      refine List.Pairwise.cons ?_ (ih hxs)
      intro y hy
      rcases mem_insertRowDesc.mp hy with rfl | hyxs
      · exact (strLeB_total x.timestamp y.timestamp).resolve_left hcond
      · exact hx y hyxs

theorem pairwise_sortRowsDesc (l : List MetaRow) :
    (sortRowsDesc l).Pairwise (fun a b => strLeB b.timestamp a.timestamp = true) := by
  induction l with
  | nil => simp [sortRowsDesc]
  | cons x xs ih => exact pairwise_insertRowDesc x _ ih

/-- C8: for a blank (empty or whitespace-only) query the index search skips
full-text matching altogether — the result is the same as for the empty query
and does not depend on the FTS matcher — and returns the filtered rows' ids
ordered purely by timestamp descending, truncated to `limit`; when the limit
covers the filtered rows, every filter-passing indexed row appears. -/
theorem c8_empty_query_search (m : String → FtsRow → Option Int) (db : IndexDB)
    (q : String) (f : SearchFilters) (lim : Nat) (hq : pyStrip q = "") :
    searchTraces m db q f lim = searchTraces m db "" f lim ∧
    ∃ rows : List MetaRow,
      searchTraces m db q f lim = rows.map MetaRow.trace_id ∧
      rows.length ≤ lim ∧
      (∀ r ∈ rows, r ∈ db.traces ∧ matchesFilters f r = true) ∧
      rows.Pairwise (fun a b => strLeB b.timestamp a.timestamp = true) ∧
      ((db.traces.filter (matchesFilters f)).length ≤ lim →
        ∀ r ∈ db.traces, matchesFilters f r = true → r ∈ rows) := by
  have hbranch : searchTraces m db q f lim =
      ((sortRowsDesc (db.traces.filter (matchesFilters f))).take lim).map
        MetaRow.trace_id := by
    simp [searchTraces, hq]
  have hbranch0 : searchTraces m db "" f lim =
      ((sortRowsDesc (db.traces.filter (matchesFilters f))).take lim).map
        MetaRow.trace_id := by
    simp [searchTraces, show pyStrip "" = "" from rfl]
  refine ⟨hbranch.trans hbranch0.symm,
    (sortRowsDesc (db.traces.filter (matchesFilters f))).take lim,
    hbranch, List.length_take_le lim _, ?_, ?_, ?_⟩
  · intro r hr
    have hr' : r ∈ sortRowsDesc (db.traces.filter (matchesFilters f)) :=
      (List.take_subset _ _) hr
    have hrf := mem_sortRowsDesc.mp hr'
    exact ⟨List.mem_of_mem_filter hrf, List.of_mem_filter hrf⟩
  · exact List.Pairwise.sublist (List.take_sublist _ _) (pairwise_sortRowsDesc _)
  · intro hlen r hrdb hrf
    rw [List.take_of_length_le (by rw [length_sortRowsDesc]; exact hlen)]
    exact mem_sortRowsDesc.mpr (List.mem_filter.mpr ⟨hrdb, hrf⟩)

/-- Witness for C8 at a concrete whitespace query over a one-trace index. -/
theorem c8_witness :
    searchTraces (fun _ _ => none) (indexTrace sampleTrace emptyDB) "   " noFilters 10 =
      searchTraces (fun _ _ => none) (indexTrace sampleTrace emptyDB) "" noFilters 10 ∧
    ∃ rows : List MetaRow,
      searchTraces (fun _ _ => none) (indexTrace sampleTrace emptyDB) "   " noFilters 10 =
        rows.map MetaRow.trace_id ∧
      rows.length ≤ 10 ∧
      (∀ r ∈ rows, r ∈ (indexTrace sampleTrace emptyDB).traces ∧
        matchesFilters noFilters r = true) ∧
      rows.Pairwise (fun a b => strLeB b.timestamp a.timestamp = true) ∧
      (((indexTrace sampleTrace emptyDB).traces.filter
          (matchesFilters noFilters)).length ≤ 10 →
        ∀ r ∈ (indexTrace sampleTrace emptyDB).traces,
          matchesFilters noFilters r = true → r ∈ rows) :=
  c8_empty_query_search (fun _ _ => none) (indexTrace sampleTrace emptyDB) "   "
    noFilters 10 (by decide)

theorem string_data_append (a b : String) : (a ++ b).data = a.data ++ b.data := by
  cases a
  cases b
  rfl

theorem string_length_data (s : String) : s.length = s.data.length :=
  rfl

theorem parseQuoted_append (content rest : List Char) (hc : '"' ∉ content)
    (hr : rest.head? ≠ some '"') :
    parseQuoted (content ++ '"' :: rest) = some (content, rest) := by
  induction content with
  | nil =>
    cases rest with
    | nil => rfl
    | cons c2 r2 =>
      have hc2 : c2 ≠ '"' := by
        intro he
        exact hr (by rw [he]; rfl)
      simp [parseQuoted, hc2]
  | cons a as ih =>
    have ha : a ≠ '"' := fun he => hc (by rw [he]; exact List.mem_cons_self _ _)
    have has : '"' ∉ as := fun hm => hc (List.mem_cons_of_mem a hm)
    show parseQuoted (a :: (as ++ '"' :: rest)) = some (a :: as, rest)
    rw [parseQuoted.eq_def]
    simp [ha, ih has]

theorem takeWhile_append_of (p : Char → Bool) (l₁ l₂ : List Char)
    (h1 : ∀ c ∈ l₁, p c = true)
    (h2 : ∀ c r, l₂ = c :: r → p c = false) :
    (l₁ ++ l₂).takeWhile p = l₁ ∧ (l₁ ++ l₂).dropWhile p = l₂ := by
  induction l₁ with
  | nil =>
    cases l₂ with
    | nil => exact ⟨rfl, rfl⟩
    | cons c r =>
      have hp := h2 c r rfl
      constructor <;> simp [List.takeWhile_cons, List.dropWhile_cons, hp]
  | cons a l ih =>
    have ha := h1 a (List.mem_cons_self a l)
    obtain ⟨ht, hd⟩ := ih (fun c hc => h1 c (List.mem_cons_of_mem a hc))
    constructor
    · simp [List.takeWhile_cons, ha, ht]
    · simp [List.dropWhile_cons, ha, hd]

theorem parsePhrase_escape (w : String) (rest : List Char)
    (hnq : '"' ∉ w.data) (hnw : w.data ≠ []) (hkw : w ∉ fts5Keywords)
    (hok : w.data.all fts5BarewordChar = true ∨
      w.data.any (fun c => ftsSpecialChars.contains c) = true)
    (hrest : rest = [] ∨ ∃ r', rest = ' ' :: r') :
    parsePhrase ((escapeWord w).data ++ rest) = some (w, rest) := by
  by_cases hsp : w.data.any (fun c => ftsSpecialChars.contains c) = true
  · -- quoted branch: `escapeWord w = "\"" ++ w ++ "\""`
    have hesc : (escapeWord w).data = '"' :: (w.data ++ '"' :: []) := by
      unfold escapeWord
      rw [if_pos hsp, string_data_append, string_data_append]
      rfl
    rw [hesc]
    have hr : rest.head? ≠ some '"' := by
      rcases hrest with rfl | ⟨r', rfl⟩
      · simp
      · simp
    have hq := parseQuoted_append w.data rest hnq hr
    show parsePhrase ('"' :: ((w.data ++ ['"']) ++ rest)) = some (w, rest)
    rw [show (w.data ++ ['"']) ++ rest = w.data ++ '"' :: rest from by
      rw [List.append_assoc]; rfl]
    simp [parsePhrase, hq, stringMk_data]
  · -- bareword branch
    have hall : w.data.all fts5BarewordChar = true := hok.resolve_right hsp
    have hesc : escapeWord w = w := by
      unfold escapeWord
      rw [if_neg]
      intro hco
      exact hsp (by simpa [List.any_eq_true] using hco)
    rw [hesc]
    obtain ⟨c, cs, hw⟩ := List.exists_cons_of_ne_nil hnw
    have hcall : ∀ x ∈ w.data, fts5BarewordChar x = true := by
      simpa [List.all_eq_true] using hall
    have hc : fts5BarewordChar c = true := hcall c (by rw [hw]; exact List.mem_cons_self _ _)
    have hcq : c ≠ '"' := by
      intro he
      rw [he] at hc
      exact Bool.noConfusion hc
    have hrest' : ∀ x r, rest = x :: r → fts5BarewordChar x = false := by
      rintro x r hx
      rcases hrest with rfl | ⟨r', hr'⟩
      · exact absurd hx (by simp)
      · rw [hr'] at hx
        injection hx with hx1 hx2
        rw [← hx1]
        rfl
    obtain ⟨ht, hd⟩ := takeWhile_append_of fts5BarewordChar w.data rest hcall hrest'
    rw [hw] at ht hd ⊢
    show parsePhrase (c :: (cs ++ rest)) = some (w, rest)
    rw [parsePhrase]
    rw [if_neg hcq]
    have hcons : c :: cs ++ rest = c :: (cs ++ rest) := rfl
    rw [← hcons, ht, hd]
    dsimp only
    rw [show String.mk (c :: cs) = w from by rw [← hw]]
    have hkc : fts5Keywords.contains w = false := by
      simpa using hkw
    simp [hkc, hkw]

theorem buildFtsQuery_eq (q : String) :
    buildFtsQuery q = pyJoinOr ((pySplitWs q).map escapeWord) := by
  unfold buildFtsQuery
  dsimp only
  rcases h : (pySplitWs q).map escapeWord with _ | ⟨a, _ | ⟨b, l2⟩⟩
  · rfl
  · rfl
  · rw [if_neg (by simp only [List.length_cons]; omega)]

theorem length_le_joinOr (ws : List String) :
    ws.length ≤ (pyJoinOr (ws.map escapeWord)).length + 1 := by
  induction ws with
  | nil => simp
  | cons w ws ih =>
    cases ws with
    | nil => simp [pyJoinOr]
    | cons w2 ws2 =>
      have h4 : (" OR ").data.length = 4 := rfl
      show (w2 :: ws2).length + 1 ≤
        (escapeWord w ++ " OR " ++ pyJoinOr ((w2 :: ws2).map escapeWord)).data.length + 1
      rw [string_data_append, string_data_append, List.length_append,
          List.length_append, h4]
      have hih := ih
      rw [string_length_data] at hih
      simp only [List.length_cons] at hih ⊢
      omega

theorem parseOrAux_join (ws : List String) : ∀ fuel, ws.length ≤ fuel → ws ≠ [] →
    (∀ w ∈ ws, '"' ∉ w.data ∧ w.data ≠ [] ∧ w ∉ fts5Keywords ∧
      (w.data.all fts5BarewordChar = true ∨
       w.data.any (fun c => ftsSpecialChars.contains c) = true)) →
    parseOrAux fuel (pyJoinOr (ws.map escapeWord)).data = some ws := by
  induction ws with
  | nil => intro fuel _ hne _; exact absurd rfl hne
  | cons w ws ih =>
    intro fuel hfuel hne hall
    obtain ⟨hw1, hw2, hw3, hw4⟩ := hall w (List.mem_cons_self _ _)
    cases fuel with
    | zero => simp at hfuel
    | succ n =>
      cases ws with
      | nil =>
        show parseOrAux (n + 1) (escapeWord w).data = some [w]
        have hp := parsePhrase_escape w [] hw1 hw2 hw3 hw4 (Or.inl rfl)
        rw [List.append_nil] at hp
        rw [parseOrAux.eq_def, hp]
        simp
      | cons w2 ws2 =>
        have hdata : (pyJoinOr ((w :: w2 :: ws2).map escapeWord)).data =
            (escapeWord w).data ++
              ' ' :: 'O' :: 'R' :: ' ' :: (pyJoinOr ((w2 :: ws2).map escapeWord)).data := by
          show (escapeWord w ++ " OR " ++ pyJoinOr ((w2 :: ws2).map escapeWord)).data = _
          rw [string_data_append, string_data_append, List.append_assoc]
          rfl
        rw [hdata]
        have hp := parsePhrase_escape w
          (' ' :: 'O' :: 'R' :: ' ' :: (pyJoinOr ((w2 :: ws2).map escapeWord)).data)
          hw1 hw2 hw3 hw4 (Or.inr ⟨_, rfl⟩)
        have hrec := ih n (by simp only [List.length_cons] at hfuel ⊢; omega)
          (by simp) (fun x hx => hall x (List.mem_cons_of_mem _ hx))
        rw [parseOrAux.eq_def, hp]
        simp only [List.isEmpty_cons, Bool.false_eq_true, if_false]
        simp only [List.map_cons] at hrec
        simp [hrec]

/-- C9 counterexample: the token `a"b` contains `"` — a character meaningful
to the FTS5 query syntax, and one the code's own special-character list
recognizes — yet `_build_fts_query` wraps it in quotes WITHOUT escaping the
embedded quote: the output `"a"b"` is not a well-formed FTS5 string and does
not match the token literally, whereas the correct FTS5 literal quoting
`"a""b"` does. -/
theorem c9_counterexample :
    escapeWord "a\"b" = "\"a\"b\"" ∧
    ftsSpecialChars.contains '"' = true ∧
    fts5ParsePhraseWhole (escapeWord "a\"b") = none ∧
    fts5ParsePhraseWhole (fts5QuoteLit "a\"b") = some "a\"b" := by
  refine ⟨rfl, rfl, by decide, by decide⟩

/-- C9 amended: the query is tokenized on whitespace and the tokens are
combined with OR semantics, but only tokens containing one of the characters
`. " ( ) * ^ $` are quoted, and embedded double quotes are not escaped. For
tokens free of embedded quotes that are either plain barewords or contain a
listed special character (and are not FTS5 keywords), the built query is a
well-formed FTS5 `OR`-combination matching exactly those tokens literally;
tokens outside this set (e.g. containing `"`, or containing other
FTS5-meaningful characters such as `-` or `:` unquoted) are not handled. -/
theorem c9_amended (q : String) (ws : List String)
    (hsplit : pySplitWs q = ws) (hne : ws ≠ [])
    (hall : ∀ w ∈ ws, '"' ∉ w.data ∧ w.data ≠ [] ∧ w ∉ fts5Keywords ∧
      (w.data.all fts5BarewordChar = true ∨
       w.data.any (fun c => ftsSpecialChars.contains c) = true)) :
    fts5ParseOr (buildFtsQuery q) = some ws := by
  rw [buildFtsQuery_eq, hsplit]
  unfold fts5ParseOr
  exact parseOrAux_join ws _
    (by rw [string_length_data] at *; exact length_le_joinOr ws) hne hall

/-- Witness for C9 amended: a two-token query, one bareword and one token
containing a listed special character. -/
theorem c9_witness :
    fts5ParseOr (buildFtsQuery "frontend bug.fix") = some ["frontend", "bug.fix"] :=
  c9_amended "frontend bug.fix" ["frontend", "bug.fix"] rfl (by decide) (by decide)

end Palimpsest
